import Mathlib

/-!
Shallow embedding of the feature-extraction library in
`libs/feature_extractor.py` (class `FeatureExtractor`), together with
theorems checking the natural-language specification against it.

A table is modelled as an ordered list of rows; a row is an association
list from column names to cell values.  A cell value is an integer, a
string, or the missing value `nan` (pandas' NaN).  Column assignment
(`df["X"] = ...`) replaces an existing column and otherwise appends it;
`pd.concat([df, ...], axis=1)` appends columns.  Operations that raise in
Python (`astype` on NaN, `in` on a non-string) are modelled as `Option`
returning `none`.  Floating-point numbers are modelled by `ℝ` for the
trigonometric encoder and by `ℚ` for the exact percentage arithmetic.
-/

namespace SFProject

/-- A parsed timestamp with the components that `make_time_cols` reads
off it (`dt.year`, `dt.month`, `dt.dayofyear`, `dt.hour`, `dt.minute`,
and the date for `dt.date`). -/
structure DateTime where
  year : Int
  month : Int
  day : Int
  dayofyear : Int
  hour : Int
  minute : Int
deriving DecidableEq, Repr

inductive Value where
  | int (i : Int)
  | str (s : String)
  | date (y m d : Int)
  | dt (t : DateTime)
  | nan
deriving DecidableEq, Repr

abbrev Row := List (String × Value)

abbrev Table := List Row

/-- Cell of a row in a named column, `nan` when the column is absent
(pandas represents a missing entry as NaN). -/
def getVal (r : Row) (c : String) : Value :=
  (r.lookup c).getD Value.nan

/-- Column assignment `df[c] = v` on one row: replaces the column when
present, appends it otherwise. -/
def setCol (r : Row) (c : String) (v : Value) : Row :=
  r.filter (fun p => p.1 != c) ++ [(c, v)]

/-- pandas `==` on cells: NaN compares unequal to everything, itself
included. -/
def valueEq : Value → Value → Bool
  | Value.nan, _ => false
  | _, Value.nan => false
  | a, b => a == b

/-- The dictionary passed to `.map` in `make_seasons_col`:
`{1:1, 2:1, 3:2, 4:2, 5:2, 6:3, 7:3, 8:3, 9:4, 10:4, 11:4, 12:1}`.
A key outside the dictionary maps to `none` (pandas yields NaN). -/
def month_to_season (m : Int) : Option Int :=
  if m = 1 then some 1
  else if m = 2 then some 1
  else if m = 3 then some 2
  else if m = 4 then some 2
  else if m = 5 then some 2
  else if m = 6 then some 3
  else if m = 7 then some 3
  else if m = 8 then some 3
  else if m = 9 then some 4
  else if m = 10 then some 4
  else if m = 11 then some 4
  else if m = 12 then some 1
  else none

/-- Embedding of `FeatureExtractor.make_seasons_col`: copies the month column into
`Season` and maps it through `month_to_season`; a non-integer or missing
month cell becomes NaN, as does a month outside the dictionary. -/
def make_seasons_col (df : Table) (column : String) : Table :=
  df.map (fun r => setCol r "Season"
    (match r.lookup column with
     | some (Value.int m) => (month_to_season m).elim Value.nan Value.int
     | _ => Value.nan))

/-- Embedding of `FeatureExtractor.get_harmonic_tuple`: the Python body is
`value *= 2 * np.pi / period; return np.cos(value), np.sin(value)`
(the period parameter defaults to 24 at call sites that omit it).
Floating-point trigonometry is modelled over `ℝ`. -/
noncomputable def get_harmonic_tuple (value : ℝ) (period : ℝ) : ℝ × ℝ :=
  (Real.cos (value * (2 * Real.pi / period)),
   Real.sin (value * (2 * Real.pi / period)))

/-- Embedding of `FeatureExtractor.get_outlier_removed_col`: keeps the rows satisfying
`(df[column] < up_threshold) & (df[column] > low_threshold)`.  A NaN or
missing cell compares false in pandas, so such rows are dropped. -/
def get_outlier_removed_col (df : Table) (column : String)
    (up_threshold low_threshold : Int) : Table :=
  df.filter (fun r => match r.lookup column with
    | some (Value.int v) => decide (v < up_threshold) && decide (low_threshold < v)
    | _ => false)

/-- Embedding of `FeatureExtractor.get_nan_records`: `df[df.isnull().any(axis=1)]`,
the rows having a NaN cell in at least one column. -/
def get_nan_records (df : Table) : Table :=
  df.filter (fun r => r.any (fun p => p.2 == Value.nan))

/-- The concrete single-column table of the spec's outlier test:
column values −1, 0, 5, 10, 11. -/
def outlierSample : Table :=
  [[("v", Value.int (-1))], [("v", Value.int 0)], [("v", Value.int 5)],
   [("v", Value.int 10)], [("v", Value.int 11)]]

/-- The loop of `FeatureExtractor.get_true_pred_perc`: the number of
indices i < len(answers) with answers[i] == predictions[i].  Zipping
answers with predictions visits exactly those positions, given that
predictions is at least as long as answers (the shorter case raises
IndexError in Python and is handled in `get_true_pred_perc`). -/
def collisions (predictions answers : List Int) : Nat :=
  (answers.zip predictions).countP (fun p => p.1 == p.2)

/-- Embedding of `FeatureExtractor.get_true_pred_perc`: returns
`collisions * 100 / len(answers)`.  Indexing `predictions[index]` raises
IndexError when predictions is shorter than answers; with empty answers
the loop body never runs and the division raises ZeroDivisionError.
Python float division is modelled by exact division in `ℚ`. -/
def get_true_pred_perc (predictions answers : List Int) : Except String ℚ :=
  if predictions.length < answers.length then Except.error "IndexError"
  else if answers.length = 0 then Except.error "ZeroDivisionError"
  else Except.ok ((collisions predictions answers : ℚ) * 100 / (answers.length : ℚ))

/-- The dictionary `week_day_mapper` of
`FeatureExtractor.make_weekday_to_num`; a key outside it maps to `none`
(pandas `.map` yields NaN). -/
def week_day_mapper (s : String) : Option Int :=
  if s = "Monday" then some 0
  else if s = "Tuesday" then some 1
  else if s = "Wednesday" then some 2
  else if s = "Thursday" then some 3
  else if s = "Friday" then some 4
  else if s = "Saturday" then some 5
  else if s = "Sunday" then some 6
  else none

/-- The seven weekday names in calendar order, the domain of
`week_day_mapper`. -/
def weekdayNames : List String :=
  ["Monday", "Tuesday", "Wednesday", "Thursday", "Friday", "Saturday", "Sunday"]

/-- The mapped weekday cell of one row: defined only when the cell holds a
string in the dictionary (a non-string or missing cell maps to NaN in
pandas, which then fails the integer cast like an unmapped name). -/
def weekday_cell (r : Row) (column : String) : Option Int :=
  match r.lookup column with
  | some (Value.str s) => week_day_mapper s
  | _ => none

/-- Embedding of `FeatureExtractor.make_weekday_to_num`:
`df["weekdayNumerical"] = df[column].map(week_day_mapper).astype("int64")`.
The `astype` cast raises on any NaN, so the whole operation fails (`none`)
as soon as one row's weekday cell is unmapped; otherwise the integer
column is assigned on every row. -/
def make_weekday_to_num (df : Table) (column : String) : Option Table :=
  if df.all (fun r => (weekday_cell r column).isSome) then
    some (df.map (fun r => setCol r "weekdayNumerical"
      (Value.int ((weekday_cell r column).getD 0))))
  else none

/-- Python's regex class `\w`: a letter, a digit, or an underscore. -/
def isWordChar (c : Char) : Bool := c.isAlphanum || c == '_'

/-- Python's regex class `\s`: a whitespace character. -/
def isSpaceChar (c : Char) : Bool :=
  c == ' ' || c == '\t' || c == '\n' || c == '\r'

/-- A maximal non-empty run of characters of one class at the head of the
input; returns the run with the remaining input.  In the two address
patterns every `+`-run is followed by a class disjoint from it (`\w+` and
`\d+` are always followed by `\s` or by end of capture), so the greedy
run without backtracking matches the regex engine exactly. -/
def charClassRun (p : Char → Bool) (cs : List Char) :
    Option (List Char × List Char) :=
  match cs with
  | [] => none
  | c :: _ => if p c then some (cs.takeWhile p, cs.dropWhile p) else none

/-- One character of a class at the head of the input. -/
def oneChar (p : Char → Bool) (cs : List Char) : Option (Char × List Char) :=
  match cs with
  | [] => none
  | c :: rest => if p c then some (c, rest) else none

/-- The pattern `(\w+\s\w+\s[/]\s\w+\s\w+)` of
`make_streets_intersections_cols`, anchored at the head of the input; the
capture is the whole match. -/
def matchIntersectionAt (cs : List Char) : Option (List Char) := do
  let (w1, r1) ← charClassRun isWordChar cs
  let (s1, r2) ← oneChar isSpaceChar r1
  let (w2, r3) ← charClassRun isWordChar r2
  let (s2, r4) ← oneChar isSpaceChar r3
  let (sl, r5) ← oneChar (fun c => c == '/') r4
  let (s3, r6) ← oneChar isSpaceChar r5
  let (w3, r7) ← charClassRun isWordChar r6
  let (s4, r8) ← oneChar isSpaceChar r7
  let (w4, _) ← charClassRun isWordChar r8
  pure (w1 ++ [s1] ++ w2 ++ [s2] ++ [sl] ++ [s3] ++ w3 ++ [s4] ++ w4)

/-- The pattern `\d+\s\w+\s\w+\s(\w+\s\w+)` of
`make_streets_intersections_cols`, anchored at the head of the input; the
capture is the trailing two words. -/
def matchStreetAt (cs : List Char) : Option (List Char) := do
  let (_, r1) ← charClassRun Char.isDigit cs
  let (_, r2) ← oneChar isSpaceChar r1
  let (_, r3) ← charClassRun isWordChar r2
  let (_, r4) ← oneChar isSpaceChar r3
  let (_, r5) ← charClassRun isWordChar r4
  let (_, r6) ← oneChar isSpaceChar r5
  let (w1, r7) ← charClassRun isWordChar r6
  let (s, r8) ← oneChar isSpaceChar r7
  let (w2, _) ← charClassRun isWordChar r8
  pure (w1 ++ [s] ++ w2)

/-- Model of `re.search` semantics of `Series.str.extract`: the match is tried at
every start position from the left and the first success wins. -/
def searchFirst (matchAt : List Char → Option (List Char)) :
    List Char → Option (List Char)
  | [] => matchAt []
  | c :: rest =>
    match matchAt (c :: rest) with
    | some r => some r
    | none => searchFirst matchAt rest

/-- First capture of the intersection pattern anywhere in the string. -/
def extractIntersection (s : String) : Option String :=
  (searchFirst matchIntersectionAt s.data).map (fun cs => String.mk cs)

/-- First capture of the street pattern anywhere in the string. -/
def extractStreet (s : String) : Option String :=
  (searchFirst matchStreetAt s.data).map (fun cs => String.mk cs)

/-- The `Address` cell of a row as a string; a missing or non-string cell
behaves like NaN, on which `str.extract` produces NaN. -/
def addressString (r : Row) : Option String :=
  match r.lookup "Address" with
  | some (Value.str s) => some s
  | _ => none

/-- The `Street` cell appended by `make_streets_intersections_cols`:
the extracted capture, or the single-space filler from `.fillna(' ')`. -/
def streetCell (r : Row) : String :=
  ((addressString r).bind extractStreet).getD " "

/-- The `Intersection` cell appended by
`make_streets_intersections_cols`. -/
def intersectionCell (r : Row) : String :=
  ((addressString r).bind extractIntersection).getD " "

/-- Embedding of `FeatureExtractor.make_streets_intersections_cols`:
`pd.concat([df, street, intersection], axis=1)` appends the `Street` and
`Intersection` columns in that order. -/
def make_streets_intersections_cols (df : Table) : Table :=
  df.map (fun r => r ++ [("Street", Value.str (streetCell r)),
                         ("Intersection", Value.str (intersectionCell r))])

/-- Substring test of Python's `delimeter in record`. -/
def containsSub (needle : List Char) : List Char → Bool
  | [] => needle.isEmpty
  | c :: rest => needle.isPrefixOf (c :: rest) || containsSub needle rest

/-- The encoded flag of one row in `make_address_encoding_col`; `none`
models the TypeError raised by `in` on a non-string cell. -/
def address_flag (r : Row) (delimeter column : String) : Option Int :=
  match r.lookup column with
  | some (Value.str s) => some (if containsSub delimeter.data s.data then 1 else 0)
  | _ => none

/-- Embedding of `FeatureExtractor.make_address_encoding_col`: assigns the 0/1 column
`address_encoded`; the whole call fails if any cell is not a string. -/
def make_address_encoding_col (df : Table) (delimeter column : String) :
    Option Table :=
  if df.all (fun r => (address_flag r delimeter column).isSome) then
    some (df.map (fun r => setCol r "address_encoded"
      (Value.int ((address_flag r delimeter column).getD 0))))
  else none

/-- One step of collecting the distinct values of a list in order of first
appearance. -/
def insertUnique {α : Type} [DecidableEq α] (acc : List α) (v : α) : List α :=
  if v ∈ acc then acc else acc ++ [v]

/-- The distinct values of a list in order of first appearance, the order
`Series.unique()` uses.  (Group keys of a `groupby` are emitted in sorted
order in pandas; the claims checked here do not depend on row order, so
first-appearance order stands in for it.) -/
def uniqueOrder {α : Type} [DecidableEq α] (l : List α) : List α :=
  l.foldl insertUnique []

/-- The whole-column view `df[c]` with NaN for missing cells. -/
def colValues (df : Table) (c : String) : List Value :=
  df.map (fun r => getVal r c)

/-- Embedding of `FeatureExtractor.get_count_table`: adds `Count = 1`, keeps the
category, time and `Count` columns and sums `Count` grouped by
(category, time) — i.e. one output row per distinct (category, time) pair
carrying its multiplicity.  `groupby` drops groups whose key contains
NaN. -/
def get_count_table (df : Table) (category time : String) : Table :=
  let keys := (df.map (fun r => (getVal r category, getVal r time))).filter
    (fun p => p.1 != Value.nan && p.2 != Value.nan)
  (uniqueOrder keys).map (fun p =>
    [(category, p.1), (time, p.2), ("Count", Value.int (keys.count p))])

/-- Model of `Series.value_counts()`: the multiplicity of every distinct non-NaN
value of a list.  (pandas additionally sorts the result by descending
count; no claim depends on that order.) -/
def value_counts (vs : List Value) : List (Value × Nat) :=
  let vs2 := vs.filter (fun v => v != Value.nan)
  (uniqueOrder vs2).map (fun v => (v, vs2.count v))

/-- Embedding of `FeatureExtractor.get_count_table_by_street`: for every distinct
street value other than the integer 0, the `value_counts` of the
`Category` column of the rows whose `Street` equals that value (pandas
`==`, so NaN street cells match nothing).  Each such street contributes
one output column, modelled as a (street, counts) pair. -/
def get_count_table_by_street (df : Table) :
    List (Value × List (Value × Nat)) :=
  (uniqueOrder (colValues df "Street")).filterMap (fun elem =>
    if elem = Value.int 0 then none
    else some (elem, value_counts
      (colValues (df.filter (fun r => valueEq (getVal r "Street") elem)) "Category")))

/-- Split of a character list on a separator character, structurally
recursive so that proofs can evaluate it. -/
def splitOnChar (sep : Char) : List Char → List (List Char)
  | [] => [[]]
  | c :: rest =>
    let r := splitOnChar sep rest
    if c == sep then [] :: r
    else match r with
      | [] => [[c]]
      | h :: t => (c :: h) :: t

def digitsToNatAux (acc : Nat) : List Char → Option Nat
  | [] => some acc
  | c :: rest =>
    if c.isDigit then digitsToNatAux (acc * 10 + (c.toNat - '0'.toNat)) rest
    else none

/-- Decimal value of a non-empty all-digit character list, `none`
otherwise. -/
def digitsToNat (cs : List Char) : Option Nat :=
  if cs.isEmpty then none else digitsToNatAux 0 cs

/-- Gregorian leap-year rule, as the datetime library applies it. -/
def isLeapYear (y : Int) : Bool :=
  y % 4 == 0 && (y % 100 != 0 || y % 400 == 0)

/-- Number of days of a month in a given year. -/
def daysInMonth (y m : Int) : Int :=
  if m = 2 then (if isLeapYear y then 29 else 28)
  else if m = 4 ∨ m = 6 ∨ m = 9 ∨ m = 11 then 30
  else 31

/-- Days of a common year strictly before a given month. -/
def daysBeforeMonth (m : Int) : Int :=
  if m = 1 then 0 else if m = 2 then 31 else if m = 3 then 59 else if m = 4 then 90
  else if m = 5 then 120 else if m = 6 then 151 else if m = 7 then 181
  else if m = 8 then 212 else if m = 9 then 243 else if m = 10 then 273
  else if m = 11 then 304 else 334

/-- Ordinal of a date within its year (`dt.dayofyear`, 1-based). -/
def dayOfYearOf (y m d : Int) : Int :=
  daysBeforeMonth m + (if 2 < m ∧ isLeapYear y = true then 1 else 0) + d

/-- Model of `pd.to_datetime` on one cell, restricted to the
`YYYY-MM-DD HH:MM:SS` format the dataset's timestamp column carries; any
other string is a parse failure.  Calendar-invalid components (month 13,
Feb 29 of a common year, hour 24, ...) are rejected as pandas rejects
them. -/
def parseTimestamp (s : String) : Option DateTime :=
  match splitOnChar ' ' s.data with
  | [datePart, timePart] =>
    match splitOnChar '-' datePart, splitOnChar ':' timePart with
    | [ys, ms, ds], [hs, mis, ss] => do
      let y ← digitsToNat ys
      let mo ← digitsToNat ms
      let d ← digitsToNat ds
      let h ← digitsToNat hs
      let mi ← digitsToNat mis
      let se ← digitsToNat ss
      if 1 ≤ mo ∧ mo ≤ 12 ∧ 1 ≤ d ∧ (d : Int) ≤ daysInMonth (y : Int) (mo : Int) ∧
          h ≤ 23 ∧ mi ≤ 59 ∧ se ≤ 59 then
        some ⟨(y : Int), (mo : Int), (d : Int),
              dayOfYearOf (y : Int) (mo : Int) (d : Int), (h : Int), (mi : Int)⟩
      else none
    | _, _ => none
  | _ => none

/-- Parsed timestamp of one row; a non-string cell is a parse failure
like an unparseable string. -/
def timeCell (r : Row) (column : String) : Option DateTime :=
  match r.lookup column with
  | some (Value.str s) => parseTimestamp s
  | _ => none

/-- The column assignments of `make_time_cols` on one row: the timestamp
column is overwritten with the parsed datetime, then `Year`, `Month`,
`Day` (date only), `DayOfYear`, `Hour` and `Minute` are assigned. -/
def timeRow (r : Row) (timestamp_column : String) (t : DateTime) : Row :=
  setCol (setCol (setCol (setCol (setCol (setCol (setCol r
    timestamp_column (Value.dt t))
    "Year" (Value.int t.year))
    "Month" (Value.int t.month))
    "Day" (Value.date t.year t.month t.day))
    "DayOfYear" (Value.int t.dayofyear))
    "Hour" (Value.int t.hour))
    "Minute" (Value.int t.minute)

/-- Embedding of `FeatureExtractor.make_time_cols`:
`df[timestamp_column] = pd.to_datetime(df[timestamp_column])` followed by
the six derived-column assignments.  A parse failure on any row fails the
whole call (`none`), with no partial result. -/
def make_time_cols (df : Table) (timestamp_column : String) : Option Table :=
  if df.all (fun r => (timeCell r timestamp_column).isSome) then
    some (df.map (fun r => timeRow r timestamp_column
      ((timeCell r timestamp_column).getD ⟨0, 0, 0, 0, 0, 0⟩)))
  else none

/-- Additivity of a transform on one row: every column outside the
documented set is looked up unchanged. -/
def addsOnly (cols : List String) (r r2 : Row) : Prop :=
  ∀ c : String, c ∉ cols → r2.lookup c = r.lookup c

/-- The concrete three-row table of the spec's count-table test:
categories A, A, B in a single hour. -/
def countSample : Table :=
  [[("Category", Value.str "A"), ("Hour", Value.int 1)],
   [("Category", Value.str "A"), ("Hour", Value.int 1)],
   [("Category", Value.str "B"), ("Hour", Value.int 1)]]

/-- A concrete table for the per-street counts: two thefts on MARKET ST
and one fraud on the placeholder street 0. -/
def streetSample : Table :=
  [[("Street", Value.str "MARKET ST"), ("Category", Value.str "THEFT")],
   [("Street", Value.str "MARKET ST"), ("Category", Value.str "THEFT")],
   [("Street", Value.int 0), ("Category", Value.str "FRAUD")]]

end SFProject

namespace SFProject

lemma month_to_season_out_of_range (m : Int) (hm : m < 1 ∨ 12 < m) :
    month_to_season m = none := by
  rw [month_to_season, if_neg (by omega : ¬ m = 1), if_neg (by omega : ¬ m = 2),
    if_neg (by omega : ¬ m = 3), if_neg (by omega : ¬ m = 4),
    if_neg (by omega : ¬ m = 5), if_neg (by omega : ¬ m = 6),
    if_neg (by omega : ¬ m = 7), if_neg (by omega : ¬ m = 8),
    if_neg (by omega : ¬ m = 9), if_neg (by omega : ¬ m = 10),
    if_neg (by omega : ¬ m = 11), if_neg (by omega : ¬ m = 12)]

/-- C1: for every month m in 1..12 the season mapping follows the fixed
table (12,1,2 → 1; 3,4,5 → 2; 6,7,8 → 3; 9,10,11 → 4), every defined
season code lies in {1,2,3,4}, and every month outside 1..12 is mapped to
the missing value. -/
theorem season_mapping_correct (m : Int) :
    ((m = 12 ∨ m = 1 ∨ m = 2) → month_to_season m = some 1) ∧
    ((m = 3 ∨ m = 4 ∨ m = 5) → month_to_season m = some 2) ∧
    ((m = 6 ∨ m = 7 ∨ m = 8) → month_to_season m = some 3) ∧
    ((m = 9 ∨ m = 10 ∨ m = 11) → month_to_season m = some 4) ∧
    (∀ s : Int, month_to_season m = some s → s = 1 ∨ s = 2 ∨ s = 3 ∨ s = 4) ∧
    ((m < 1 ∨ 12 < m) → month_to_season m = none) := by
  refine ⟨?_, ?_, ?_, ?_, ?_, ?_⟩
  · rintro (rfl | rfl | rfl) <;> rfl
  · rintro (rfl | rfl | rfl) <;> rfl
  · rintro (rfl | rfl | rfl) <;> rfl
  · rintro (rfl | rfl | rfl) <;> rfl
  · intro s hs
    by_cases h : 1 ≤ m ∧ m ≤ 12
    · obtain ⟨h1, h2⟩ := h
      interval_cases m <;> rw [show month_to_season _ = _ from rfl] at hs <;>
        · injection hs with hs; omega
    · rw [month_to_season_out_of_range m (by omega)] at hs
      exact absurd hs (by simp)
  · exact month_to_season_out_of_range m

/-- C1 witness: the mapping evaluated at the concrete months named in the
claim, and at a concrete out-of-range month. -/
theorem season_mapping_correct_witness :
    month_to_season 1 = some 1 ∧ month_to_season 6 = some 3 ∧
    month_to_season 9 = some 4 ∧ month_to_season 13 = none :=
  ⟨(season_mapping_correct 1).1 (Or.inr (Or.inl rfl)),
   (season_mapping_correct 6).2.2.1 (Or.inl rfl),
   (season_mapping_correct 9).2.2.2.1 (Or.inl rfl),
   (season_mapping_correct 13).2.2.2.2.2 (by omega)⟩

/-- C2: for every value v and period p > 0 the harmonic encoding returns
the pair (cos(2π·v/p), sin(2π·v/p)); it is periodic with period p, and at
value 0 with period 24 it returns (1, 0). -/
theorem harmonic_correct (v p : ℝ) (hp : 0 < p) :
    get_harmonic_tuple v p =
      (Real.cos (2 * Real.pi * v / p), Real.sin (2 * Real.pi * v / p)) ∧
    get_harmonic_tuple (v + p) p = get_harmonic_tuple v p ∧
    get_harmonic_tuple 0 24 = (1, 0) := by
  have hp0 : p ≠ 0 := ne_of_gt hp
  refine ⟨?_, ?_, ?_⟩
  · unfold get_harmonic_tuple
    rw [show v * (2 * Real.pi / p) = 2 * Real.pi * v / p by ring]
  · unfold get_harmonic_tuple
    rw [show (v + p) * (2 * Real.pi / p) = v * (2 * Real.pi / p) + 2 * Real.pi by
      field_simp; ring]
    rw [Real.cos_add_two_pi, Real.sin_add_two_pi]
  · unfold get_harmonic_tuple
    norm_num

/-- C2 witness: periodicity at the concrete value 3 with period 24. -/
theorem harmonic_correct_witness :
    get_harmonic_tuple ((3 : ℝ) + 24) 24 = get_harmonic_tuple 3 24 :=
  (harmonic_correct 3 24 (by norm_num)).2.1

/-- C3: the outlier filter keeps exactly the rows whose value in the chosen
column lies strictly between the thresholds (rows equal to a threshold are
excluded), and on the concrete column −1, 0, 5, 10, 11 with thresholds
low = 0 and high = 10 it keeps only the row with value 5. -/
theorem outlier_filter_correct :
    (∀ (df : Table) (c : String) (up low : Int) (r : Row) (v : Int),
      r ∈ df → r.lookup c = some (Value.int v) →
      (r ∈ get_outlier_removed_col df c up low ↔ (low < v ∧ v < up))) ∧
    get_outlier_removed_col outlierSample "v" 10 0 = [[("v", Value.int 5)]] := by
  constructor
  · intro df c up low r v hr hv
    simp only [get_outlier_removed_col, List.mem_filter, hr, true_and, hv,
      Bool.and_eq_true, decide_eq_true_eq]
    exact and_comm
  · rfl

/-- C3 witness: the row with value 5 survives the concrete filter because
0 < 5 and 5 < 10. -/
theorem outlier_filter_correct_witness :
    [("v", Value.int 5)] ∈ get_outlier_removed_col outlierSample "v" 10 0 :=
  (outlier_filter_correct.1 outlierSample "v" 10 0 [("v", Value.int 5)] 5
    (by decide) rfl).mpr (by decide)

/-- C4: with equal-length sequences, the accuracy score is
100·(matching positions)/length, and it is a ZeroDivisionError on empty
sequences; the spec's concrete example evaluates to 50. -/
theorem accuracy_correct (predictions answers : List Int)
    (h : predictions.length = answers.length) :
    (answers = [] →
      get_true_pred_perc predictions answers = Except.error "ZeroDivisionError") ∧
    (answers ≠ [] →
      get_true_pred_perc predictions answers =
        Except.ok (100 * (collisions predictions answers : ℚ) / (answers.length : ℚ))) ∧
    get_true_pred_perc [1, 0, 1, 1] [1, 1, 1, 0] = Except.ok 50 := by
  refine ⟨?_, ?_, by norm_num [get_true_pred_perc, collisions]⟩
  · rintro rfl
    simp [get_true_pred_perc]
  · intro hne
    have hlen : ¬ answers.length = 0 := fun h0 =>
      hne (List.eq_nil_of_length_eq_zero h0)
    rw [get_true_pred_perc, if_neg (by omega), if_neg hlen,
      mul_comm ((collisions predictions answers : ℚ)) (100 : ℚ)]

/-- C4 witness: the theorem applied to the spec's concrete example, whose
sequences have equal length 4. -/
theorem accuracy_correct_witness :
    get_true_pred_perc [1, 0, 1, 1] [1, 1, 1, 0] = Except.ok 50 :=
  (accuracy_correct [1, 0, 1, 1] [1, 1, 1, 0] rfl).2.2

lemma zip_eq_zip_take {α β : Type} (l : List α) (l2 : List β) :
    l.zip l2 = l.zip (l2.take l.length) := by
  induction l generalizing l2 with
  | nil => simp
  | cons a t ih =>
    cases l2 with
    | nil => simp
    | cons b t2 =>
      rw [List.length_cons, List.zip_cons_cons, List.take_succ_cons,
        List.zip_cons_cons, ih t2]

/-- C9: the accuracy score only reads the first len(answers) entries of
predictions: two prediction lists at least as long as a non-empty answers
list that agree on that prefix get the same score, and neither call
fails. -/
theorem accuracy_ignores_trailing (answers p1 p2 : List Int)
    (hne : answers ≠ []) (h1 : answers.length ≤ p1.length)
    (h2 : answers.length ≤ p2.length)
    (hpre : p1.take answers.length = p2.take answers.length) :
    get_true_pred_perc p1 answers = get_true_pred_perc p2 answers ∧
    ∃ q : ℚ, get_true_pred_perc p1 answers = Except.ok q := by
  have hc : collisions p1 answers = collisions p2 answers := by
    unfold collisions
    rw [zip_eq_zip_take answers p1, zip_eq_zip_take answers p2, hpre]
  have hlen : ¬ answers.length = 0 := fun h0 =>
    hne (List.eq_nil_of_length_eq_zero h0)
  constructor
  · rw [get_true_pred_perc, get_true_pred_perc,
      if_neg (show ¬ p1.length < answers.length by omega), if_neg hlen,
      if_neg (show ¬ p2.length < answers.length by omega), if_neg hlen, hc]
  · exact ⟨_, by
      rw [get_true_pred_perc,
        if_neg (show ¬ p1.length < answers.length by omega), if_neg hlen]⟩

/-- C9 witness: predictions [1,2] and [1,3] against answers [1] agree on
the one-element prefix, so the scores coincide. -/
theorem accuracy_ignores_trailing_witness :
    get_true_pred_perc [1, 2] [1] = get_true_pred_perc [1, 3] [1] :=
  (accuracy_ignores_trailing [1] [1, 2] [1, 3] (by decide) (by decide)
    (by decide) rfl).1

lemma week_day_mapper_not_mem (s : String) (hs : s ∉ weekdayNames) :
    week_day_mapper s = none := by
  rw [week_day_mapper]
  split_ifs with h1 h2 h3 h4 h5 h6 h7
  all_goals first | rfl | (subst_vars; exact absurd (by decide) hs)

/-- C5: the weekday dictionary maps Monday..Sunday to 0..6 in calendar
order (a bijection onto {0..6}), every other string maps to the missing
value, and a table containing an unmapped weekday name makes the whole
operation fail instead of defaulting. -/
theorem weekday_mapping_correct :
    (weekdayNames.map week_day_mapper =
      [some 0, some 1, some 2, some 3, some 4, some 5, some 6]) ∧
    (∀ s : String, s ∉ weekdayNames → week_day_mapper s = none) ∧
    (∀ (df : Table) (column : String) (r : Row) (s : String),
      r ∈ df → r.lookup column = some (Value.str s) → s ∉ weekdayNames →
      make_weekday_to_num df column = none) := by
  refine ⟨by decide, week_day_mapper_not_mem, ?_⟩
  intro df column r s hr hlook hs
  rw [make_weekday_to_num, if_neg]
  intro hall
  rw [List.all_eq_true] at hall
  have hcell := hall r hr
  simp only [weekday_cell, hlook, week_day_mapper_not_mem s hs,
    Option.isSome_none, Bool.false_eq_true] at hcell

/-- C5 witness: a one-row table whose weekday cell holds the unmapped name
Funday makes the operation fail. -/
theorem weekday_mapping_correct_witness :
    make_weekday_to_num [[("W", Value.str "Funday")]] "W" = none :=
  weekday_mapping_correct.2.2 [[("W", Value.str "Funday")]] "W"
    [("W", Value.str "Funday")] "Funday" (by decide) rfl (by decide)

/-- C7: street/intersection extraction appends a `Street` and an
`Intersection` column to every row; a row whose address has no match of
the respective pattern gets the single-space filler, never a missing
value, and the patterns behave as on the concrete addresses below. -/
theorem streets_intersections_correct :
    (∀ (df : Table) (r : Row), r ∈ df →
      (r ++ [("Street", Value.str (streetCell r)),
             ("Intersection", Value.str (intersectionCell r))])
        ∈ make_streets_intersections_cols df ∧
      ((addressString r).bind extractStreet = none → streetCell r = " ") ∧
      ((addressString r).bind extractIntersection = none →
        intersectionCell r = " ")) ∧
    extractIntersection "OAK ST / LAGUNA ST" = some "OAK ST / LAGUNA ST" ∧
    extractStreet "100 BLOCK OF MARKET ST" = some "MARKET ST" ∧
    extractIntersection "100 BLOCK OF MARKET ST" = none ∧
    extractStreet "OAK ST / LAGUNA ST" = none := by
  refine ⟨?_, by decide, by decide, by decide, by decide⟩
  intro df r hr
  refine ⟨List.mem_map_of_mem _ hr, ?_, ?_⟩
  · intro h; rw [streetCell, h]; rfl
  · intro h; rw [intersectionCell, h]; rfl

/-- C7 witness: a one-row table whose address matches the street pattern
but not the intersection pattern; the appended cells are the captured
street and the single-space filler. -/
theorem streets_intersections_correct_witness :
    ([("Address", Value.str "100 BLOCK OF MARKET ST"),
      ("Street", Value.str "MARKET ST"), ("Intersection", Value.str " ")] : Row)
      ∈ make_streets_intersections_cols
        [[("Address", Value.str "100 BLOCK OF MARKET ST")]] :=
  (streets_intersections_correct.1
    [[("Address", Value.str "100 BLOCK OF MARKET ST")]]
    [("Address", Value.str "100 BLOCK OF MARKET ST")] (by decide)).1

lemma mem_insertUnique {α : Type} [DecidableEq α] (acc : List α) (a x : α) :
    x ∈ insertUnique acc a ↔ x ∈ acc ∨ x = a := by
  unfold insertUnique
  split_ifs with h
  · constructor
    · exact Or.inl
    · rintro (hx | rfl)
      · exact hx
      · exact h
  · simp [List.mem_append]

lemma mem_foldl_insertUnique {α : Type} [DecidableEq α] (l : List α) :
    ∀ (acc : List α) (x : α),
      x ∈ l.foldl insertUnique acc ↔ x ∈ acc ∨ x ∈ l := by
  induction l with
  | nil => intro acc x; simp
  | cons a t ih =>
    intro acc x
    rw [List.foldl_cons, ih, mem_insertUnique]
    simp [List.mem_cons, or_assoc]

lemma mem_uniqueOrder {α : Type} [DecidableEq α] (l : List α) (x : α) :
    x ∈ uniqueOrder l ↔ x ∈ l := by
  rw [uniqueOrder, mem_foldl_insertUnique]
  simp

lemma count_filter_of_pos {α : Type} [DecidableEq α] {p : α → Bool}
    (vs : List α) (v : α) (hv : p v = true) :
    (vs.filter p).count v = vs.count v := by
  induction vs with
  | nil => rfl
  | cons a t ih =>
    by_cases h : p a
    · rw [List.filter_cons_of_pos h, List.count_cons, List.count_cons, ih]
    · have hva : ¬ v = a := fun he => h (he ▸ hv)
      have hav : ¬ a = v := fun he => hva he.symm
      rw [List.filter_cons_of_neg h, ih, List.count_cons]
      simp [hva, hav]

/-- C6 counterexample: `get_count_table` is a transform of the library
that is neither outlier removal nor NaN selection, yet on the spec's own
three-row count example it returns two rows. -/
theorem count_table_changes_row_count :
    (get_count_table countSample "Category" "Hour").length ≠
      countSample.length := by decide

lemma lookup_setCol_ne (r : Row) (c c2 : String) (v : Value) (h : ¬ c2 = c) :
    (setCol r c v).lookup c2 = r.lookup c2 := by
  unfold setCol
  induction r with
  | nil =>
    have hcc : (c2 == c) = false := by simp [h]
    simp [List.lookup_cons, hcc]
  | cons p t ih =>
    obtain ⟨k, w⟩ := p
    by_cases hk : k = c
    · rw [List.filter_cons_of_neg (by simp [hk]), ih, List.lookup_cons]
      have hck : (c2 == k) = false := by simp [hk, h]
      rw [hck]
    · rw [List.filter_cons_of_pos (by simp [hk]), List.cons_append,
        List.lookup_cons, List.lookup_cons]
      by_cases hck : c2 = k
      · simp [hck]
      · have hckb : (c2 == k) = false := by simp [hck]
        rw [hckb, ih]

lemma lookup_append_two (r : Row) (ka kb : String) (va vb : Value) (c2 : String)
    (ha : ¬ c2 = ka) (hb : ¬ c2 = kb) :
    (r ++ [(ka, va), (kb, vb)]).lookup c2 = r.lookup c2 := by
  induction r with
  | nil =>
    have h1 : (c2 == ka) = false := by simp [ha]
    have h2 : (c2 == kb) = false := by simp [hb]
    simp [List.lookup_cons, h1, h2]
  | cons p t ih =>
    obtain ⟨k, w⟩ := p
    rw [List.cons_append, List.lookup_cons, List.lookup_cons]
    by_cases hck : c2 = k
    · simp [hck]
    · have hckb : (c2 == k) = false := by simp [hck]
      rw [hckb, ih]

lemma forall₂_map_self {R : Row → Row → Prop} (f : Row → Row) (df : Table)
    (h : ∀ r ∈ df, R r (f r)) : List.Forall₂ R df (df.map f) := by
  induction df with
  | nil => exact List.Forall₂.nil
  | cons r t ih =>
    exact List.Forall₂.cons (h r (by simp))
      (ih (fun x hx => h x (List.mem_cons_of_mem r hx)))

/-- C6 amended: every transform adds or replaces only its documented
columns — each output row answers every other column lookup exactly as
its input row does — and preserves the row count (the two lists
correspond row by row), except outlier removal and NaN selection, which
return sublists of the input; the counting transforms are exempt because
they aggregate, as the counterexample shows. -/
theorem transforms_additive_row_preserving :
    (∀ df : Table,
      (make_streets_intersections_cols df).length = df.length ∧
      List.Forall₂ (addsOnly ["Street", "Intersection"]) df
        (make_streets_intersections_cols df)) ∧
    (∀ (df : Table) (c : String),
      (make_seasons_col df c).length = df.length ∧
      List.Forall₂ (addsOnly ["Season"]) df (make_seasons_col df c)) ∧
    (∀ (df : Table) (ts : String) (out : Table), make_time_cols df ts = some out →
      out.length = df.length ∧
      List.Forall₂
        (addsOnly [ts, "Year", "Month", "Day", "DayOfYear", "Hour", "Minute"])
        df out) ∧
    (∀ (df : Table) (c : String) (out : Table), make_weekday_to_num df c = some out →
      out.length = df.length ∧
      List.Forall₂ (addsOnly ["weekdayNumerical"]) df out) ∧
    (∀ (df : Table) (d c : String) (out : Table),
      make_address_encoding_col df d c = some out →
      out.length = df.length ∧
      List.Forall₂ (addsOnly ["address_encoded"]) df out) ∧
    (∀ (df : Table) (c : String) (up low : Int),
      List.Sublist (get_outlier_removed_col df c up low) df) ∧
    (∀ df : Table, List.Sublist (get_nan_records df) df) := by
  refine ⟨?_, ?_, ?_, ?_, ?_, ?_, ?_⟩
  · intro df
    refine ⟨by simp [make_streets_intersections_cols], ?_⟩
    apply forall₂_map_self
    intro r hr c2 hc2
    simp only [List.mem_cons, List.not_mem_nil, or_false, not_or] at hc2
    exact lookup_append_two r "Street" "Intersection" _ _ c2 hc2.1 hc2.2
  · intro df c
    refine ⟨by simp [make_seasons_col], ?_⟩
    apply forall₂_map_self
    intro r hr c2 hc2
    simp only [List.mem_cons, List.not_mem_nil, or_false, not_or] at hc2
    exact lookup_setCol_ne r "Season" c2 _ hc2
  · intro df ts out h
    rw [make_time_cols] at h
    split_ifs at h
    simp only [Option.some.injEq] at h
    subst h
    refine ⟨by simp, ?_⟩
    apply forall₂_map_self
    intro r hr c2 hc2
    simp only [List.mem_cons, List.not_mem_nil, or_false, not_or] at hc2
    obtain ⟨h1, h2, h3, h4, h5, h6, h7⟩ := hc2
    rw [timeRow, lookup_setCol_ne _ _ _ _ h7, lookup_setCol_ne _ _ _ _ h6,
      lookup_setCol_ne _ _ _ _ h5, lookup_setCol_ne _ _ _ _ h4,
      lookup_setCol_ne _ _ _ _ h3, lookup_setCol_ne _ _ _ _ h2,
      lookup_setCol_ne _ _ _ _ h1]
  · intro df c out h
    rw [make_weekday_to_num] at h
    split_ifs at h
    simp only [Option.some.injEq] at h
    subst h
    refine ⟨by simp, ?_⟩
    apply forall₂_map_self
    intro r hr c2 hc2
    simp only [List.mem_cons, List.not_mem_nil, or_false, not_or] at hc2
    exact lookup_setCol_ne r "weekdayNumerical" c2 _ hc2
  · intro df d c out h
    rw [make_address_encoding_col] at h
    split_ifs at h
    simp only [Option.some.injEq] at h
    subst h
    refine ⟨by simp, ?_⟩
    apply forall₂_map_self
    intro r hr c2 hc2
    simp only [List.mem_cons, List.not_mem_nil, or_false, not_or] at hc2
    exact lookup_setCol_ne r "address_encoded" c2 _ hc2
  · intro df c up low; exact List.filter_sublist df
  · intro df; exact List.filter_sublist df

/-- C6 witness: time decomposition succeeds on a one-row table carrying
the parseable timestamp 2015-05-13 23:53:00 and preserves its row
count. -/
theorem transforms_additive_row_preserving_witness :
    ([[("Dates", Value.dt ⟨2015, 5, 13, 133, 23, 53⟩),
       ("Year", Value.int 2015), ("Month", Value.int 5),
       ("Day", Value.date 2015 5 13), ("DayOfYear", Value.int 133),
       ("Hour", Value.int 23), ("Minute", Value.int 53)]] : Table).length =
      ([[("Dates", Value.str "2015-05-13 23:53:00")]] : Table).length :=
  (transforms_additive_row_preserving.2.2.1
    [[("Dates", Value.str "2015-05-13 23:53:00")]] "Dates"
    [[("Dates", Value.dt ⟨2015, 5, 13, 133, 23, 53⟩),
      ("Year", Value.int 2015), ("Month", Value.int 5),
      ("Day", Value.date 2015 5 13), ("DayOfYear", Value.int 133),
      ("Hour", Value.int 23), ("Minute", Value.int 53)]] (by decide)).1

/-- C8: the per-street count table has exactly one column per distinct
street value other than the placeholder 0, carrying the `value_counts` of
the categories of that street's rows; and every `value_counts` entry of a
list is a value occurring in it together with its multiplicity. -/
theorem count_by_street_correct :
    (∀ (df : Table) (st : Value) (counts : List (Value × Nat)),
      (st, counts) ∈ get_count_table_by_street df ↔
        (st ∈ colValues df "Street" ∧ st ≠ Value.int 0 ∧
         counts = value_counts (colValues
           (df.filter (fun r => valueEq (getVal r "Street") st)) "Category"))) ∧
    (∀ (vs : List Value) (v : Value) (n : Nat),
      (v, n) ∈ value_counts vs → v ∈ vs ∧ v ≠ Value.nan ∧ n = vs.count v) := by
  constructor
  · intro df st counts
    simp only [get_count_table_by_street, List.mem_filterMap]
    constructor
    · rintro ⟨elem, hmem, hf⟩
      by_cases h0 : elem = Value.int 0
      · rw [if_pos h0] at hf
        exact absurd hf (by simp)
      · rw [if_neg h0] at hf
        simp only [Option.some.injEq, Prod.mk.injEq] at hf
        rcases hf with ⟨he, hc⟩
        subst he
        subst hc
        exact ⟨(mem_uniqueOrder _ _).mp hmem, h0, rfl⟩
    · rintro ⟨hmem, h0, rfl⟩
      exact ⟨st, (mem_uniqueOrder _ _).mpr hmem, by rw [if_neg h0]⟩
  · intro vs v n hmem
    simp only [value_counts, List.mem_map] at hmem
    obtain ⟨u, hu, huv⟩ := hmem
    simp only [Prod.mk.injEq] at huv
    obtain ⟨rfl, rfl⟩ := huv
    have hv := (mem_uniqueOrder _ _).mp hu
    rw [List.mem_filter] at hv
    have hnan : u ≠ Value.nan := by simpa using hv.2
    exact ⟨hv.1, hnan, count_filter_of_pos vs u (by simpa using hnan)⟩

/-- C8 witness: on the concrete table, MARKET ST contributes the column
counting its two thefts, by the characterisation applied at that
street. -/
theorem count_by_street_correct_witness :
    (Value.str "MARKET ST",
      value_counts (colValues (streetSample.filter
        (fun r => valueEq (getVal r "Street") (Value.str "MARKET ST")))
        "Category")) ∈ get_count_table_by_street streetSample :=
  (count_by_street_correct.1 streetSample (Value.str "MARKET ST") _).mpr
    ⟨by decide, by decide, rfl⟩

/-- C10: outlier removal and NaN-row selection both return a sublist of
the input table: every surviving row is a row of the input, unchanged and
in its original relative order, and no rows or columns are added. -/
theorem filter_ops_return_sublists :
    (∀ (df : Table) (c : String) (up low : Int),
      List.Sublist (get_outlier_removed_col df c up low) df) ∧
    (∀ df : Table, List.Sublist (get_nan_records df) df) :=
  ⟨fun df _ _ _ => List.filter_sublist df, fun df => List.filter_sublist df⟩

end SFProject
